import Mathlib

/-!
Verification development for the brutalist voice-notes application.

The embedding below translates the TypeScript source into Lean:
* the note data model and the CRUD handlers `addNote`, `deleteNote`,
  `saveEdit` of the `NoteApp` component;
* the localStorage persistence effects (serialize to JSON, best-effort
  parse on load), modelled at the level of JSON values since
  `JSON.parse (JSON.stringify v)` reproduces the JSON value `v`;
* the voice-capture stop path (`stopRecording`, the `mediaRecorder.onstop`
  handler, `handleTranscription`) as the ordered list of its observable
  effects (hints shown, fetch issued, note added, microphone stream
  released);
* the transcription relay `POST` handler of `src/app/api/transcribe/route.ts`
  together with its catch-branch error mapping;
* the lazily cached OpenAI client constructor `getOpenAI` of
  `src/lib/openai.ts`, with explicit cache state and a count of reads of
  the process environment.
-/

/-- JavaScript `String.prototype.trim`: strip leading and trailing
whitespace characters. -/
def jsTrim (s : String) : String :=
  String.mk
    (((s.data.dropWhile Char.isWhitespace).reverse.dropWhile
      Char.isWhitespace).reverse)

/-- A note record (`interface Note` in the client component): opaque id,
free-form content, and the `Date.now()` creation timestamp in
milliseconds. -/
structure Note where
  id : String
  content : String
  createdAt : Int
  deriving DecidableEq, Repr

/-- The `addNote` handler. In the source the optional `content` argument
falls back to the `newNoteContent` input state via JavaScript
`content || newNoteContent` (so an empty string also falls back); if the
final content trims to empty the call is a no-op, otherwise a fresh note
with a newly generated id and the current time is prepended. The
generated id and current time are explicit arguments here. -/
def addNote (content : Option String) (newNoteContent : String)
    (newId : String) (now : Int) (notes : List Note) : List Note :=
  let finalContent :=
    match content with
    | some c => if c = "" then newNoteContent else c
    | none => newNoteContent
  if jsTrim finalContent = "" then notes
  else { id := newId, content := finalContent, createdAt := now } :: notes

/-- The `deleteNote` handler: `notes.filter((note) => note.id !== id)`. -/
def deleteNote (id : String) (notes : List Note) : List Note :=
  notes.filter (fun note => note.id ≠ id)

/-- The `saveEdit` handler: if no note is being edited (`editingId` null)
nothing happens; otherwise every note whose id equals `editingId` has its
content replaced in place (`{ ...note, content: editContent }`), all other
notes are kept as they are, and order is preserved by `map`. -/
def saveEdit (editingId : Option String) (editContent : String)
    (notes : List Note) : List Note :=
  match editingId with
  | none => notes
  | some eid =>
      notes.map (fun note =>
        if note.id = eid then { note with content := editContent } else note)

/-- JSON values, as produced by `JSON.parse` on the stored string. -/
inductive Json where
  | null
  | bool (b : Bool)
  | num (n : Int)
  | str (s : String)
  | arr (elements : List Json)
  | obj (fields : List (String × Json))

/-- Serialization of one note, the JSON object that
`JSON.stringify` writes for a `Note` record. -/
def noteToJson (n : Note) : Json :=
  Json.obj [("id", Json.str n.id), ("content", Json.str n.content),
    ("createdAt", Json.num n.createdAt)]

/-- Serialization of the whole store: `JSON.stringify(notes)` produces the
JSON array of the serialized notes, in order. This is the value written to
`localStorage` under the `brutalist-notes` key by the save effect. -/
def saveNotes (notes : List Note) : Json :=
  Json.arr (notes.map noteToJson)

/-- Well-formedness check for a stored JSON value: it decodes to a `Note`
exactly when it is the object shape `noteToJson` produces. The client code
itself never decodes; this definition is used to state which stored values
are lists of notes. -/
def decodeNote : Json → Option Note
  | Json.obj [(k1, Json.str i), (k2, Json.str c), (k3, Json.num t)] =>
      if k1 = "id" ∧ k2 = "content" ∧ k3 = "createdAt" then
        some { id := i, content := c, createdAt := t }
      else none
  | _ => none

/-- Decode a list of stored JSON values into notes; fails if any element
is not a well-formed note. -/
def decodeNotes : List Json → Option (List Note)
  | [] => some []
  | j :: js =>
      match decodeNote j with
      | none => none
      | some n =>
          match decodeNotes js with
          | none => none
          | some ns => some (n :: ns)

/-- Possible states of the `brutalist-notes` localStorage entry as seen by
the load effect: absent (`getItem` returns null), present but not valid
JSON (`JSON.parse` throws), or present and parsed to a JSON value. -/
inductive StoredState where
  | missing
  | unparsable
  | parsed (value : Json)

/-- The load effect of `NoteApp`: missing entry does nothing (store stays
empty), a parse failure is caught and ignored, and a parsed value is
installed with `setNotes(parsed)` only when `Array.isArray(parsed)` — the
array elements are installed verbatim, without any per-element
validation. The result is the raw list of JSON values held in the notes
state. -/
def loadNotes : StoredState → List Json
  | StoredState.missing => []
  | StoredState.unparsable => []
  | StoredState.parsed (Json.arr xs) => xs
  | StoredState.parsed _ => []

/-- One user operation on the note store, with the generated id and
timestamp of an add made explicit. -/
inductive NoteOp where
  | add (content : String) (newId : String) (now : Int)
  | edit (id : String) (content : String)
  | del (id : String)

/-- Apply one operation through the corresponding handler. -/
def applyOp (op : NoteOp) (notes : List Note) : List Note :=
  match op with
  | NoteOp.add c i t => addNote (some c) "" i t notes
  | NoteOp.edit i c => saveEdit (some i) c notes
  | NoteOp.del i => deleteNote i notes

/-- Apply a sequence of operations from left to right. -/
def applyOps (ops : List NoteOp) (notes : List Note) : List Note :=
  ops.foldl (fun acc op => applyOp op acc) notes

/-- Observable effects of the voice-capture stop path, in the order they
occur: the "Hold to record" hint, the fetch of `/api/transcribe`, the
`addNote` call on a transcript, the "Couldn't hear clearly" hint, the
"Processing failed" hint, and stopping the microphone stream tracks. -/
inductive Event where
  | hintTooShort
  | fetchRequest
  | noteAdded (text : String)
  | hintNoSpeech
  | hintProcessingFailed
  | releaseStream
  deriving DecidableEq, Repr

/-- Outcome of the fetch to `/api/transcribe` as seen by
`handleTranscription`: an ok response whose JSON body may or may not have
a `text` field, a non-ok response (its `error` message may be absent), or
a network failure where `fetch` itself rejects. -/
inductive FetchResult where
  | ok (text : Option String)
  | httpError (errorMessage : Option String)
  | networkFailure
  deriving DecidableEq, Repr

/-- The `handleTranscription` function as its trace of observable effects.
It returns immediately when the blob is under 1000 bytes (no request is
made). Otherwise it issues the fetch; on an ok response it computes
`data.text?.trim()` and either adds a note with the trimmed text (when
defined and nonempty) or shows the "Couldn't hear clearly" hint; a non-ok
response or a thrown network error lands in the catch branch, which shows
the "Processing failed" hint. -/
def handleTranscription (blobSize : Nat) (result : FetchResult) : List Event :=
  if blobSize < 1000 then []
  else
    Event.fetchRequest ::
      match result with
      | FetchResult.ok (some t) =>
          if jsTrim t = "" then [Event.hintNoSpeech] else [Event.noteAdded (jsTrim t)]
      | FetchResult.ok none => [Event.hintNoSpeech]
      | FetchResult.httpError _ => [Event.hintProcessingFailed]
      | FetchResult.networkFailure => [Event.hintProcessingFailed]

/-- The `mediaRecorder.onstop` handler: it assembles the accumulated
chunks into one blob, awaits `handleTranscription` on it, and only then
stops the tracks of the microphone stream. The stream release is thus the
last effect, after the transcription attempt has completed. -/
def onstopTrace (blobSize : Nat) (result : FetchResult) : List Event :=
  handleTranscription blobSize result ++ [Event.releaseStream]

/-- The `stopRecording` handler invoked on pointer-up or pointer-leave
while recording, as the trace of the whole session tail. Synchronously it
stops the recorder (which queues the `onstop` handler), clears the timer,
and — when the hold duration is under 300 ms — shows the "Hold to record"
hint; the queued `onstop` handler then runs. Nothing in the duration
check prevents the `onstop` handler from running. -/
def stopRecording (duration : Nat) (blobSize : Nat)
    (result : FetchResult) : List Event :=
  (if duration < 300 then [Event.hintTooShort] else []) ++
    onstopTrace blobSize result

/-- An audio blob as assembled by the client: its negotiated media type
and its byte content. -/
structure AudioBlob where
  mediaType : String
  bytes : List Nat
  deriving DecidableEq, Repr

/-- A named file as handed to the upstream transcription API. -/
structure UploadFile where
  name : String
  mediaType : String
  bytes : List Nat
  deriving DecidableEq, Repr

/-- The relay's file conversion
`await toFile(buffer, 'audio.webm', { type: 'audio/webm' })`: the
uploaded blob's bytes are wrapped in a file with the fixed name
`audio.webm` and fixed media type `audio/webm`, whatever the blob's own
media type was. -/
def toFile (audio : AudioBlob) : UploadFile :=
  { name := "audio.webm", mediaType := "audio/webm", bytes := audio.bytes }

/-- The client's encoding negotiation:
`MediaRecorder.isTypeSupported('audio/webm') ? 'audio/webm' : 'audio/mp4'`. -/
def chosenMimeType (webmSupported : Bool) : String :=
  if webmSupported then "audio/webm" else "audio/mp4"

/-- A JavaScript value caught by the relay's catch branch: either an
`Error` instance with a message and a possibly attached numeric `status`,
or some non-`Error` value. -/
inductive ThrownValue where
  | jsError (message : String) (status : Option Nat)
  | nonErrorValue
  deriving DecidableEq, Repr

/-- Outcome of the upstream transcription call inside the relay's try
block: a transcript, or a thrown value. -/
inductive UpstreamResult where
  | success (text : String)
  | thrown (value : ThrownValue)
  deriving DecidableEq, Repr

/-- The JSON body of a relay response: `{ text: ... }` or `{ error: ... }`. -/
inductive RelayBody where
  | text (t : String)
  | err (message : String)
  deriving DecidableEq, Repr

/-- The catch branch of the relay `POST` handler in
`src/app/api/transcribe/route.ts`: defaults are message
"Transcription failed" and status 500; an `Error` instance contributes
its message; a numeric `status` property overrides the status code, and
status 401 replaces the message with the invalid-key message. -/
def relayCatch (value : ThrownValue) : Nat × RelayBody :=
  match value with
  | ThrownValue.nonErrorValue => (500, RelayBody.err "Transcription failed")
  | ThrownValue.jsError m none => (500, RelayBody.err m)
  | ThrownValue.jsError m (some s) =>
      (s, RelayBody.err
        (if s = 401 then "Invalid OpenAI API Key. Please check your Secrets."
         else m))

/-- The relay `POST` handler: status code and JSON body as a function of
the uploaded file field and the upstream outcome. A missing file field is
a 400 with "No audio file provided"; a transcript is relayed as
`{ text }` with status 200; a thrown value goes through the catch branch. -/
def POST (file : Option AudioBlob) (upstream : UpstreamResult) :
    Nat × RelayBody :=
  match file with
  | none => (400, RelayBody.err "No audio file provided")
  | some _ =>
      match upstream with
      | UpstreamResult.success t => (200, RelayBody.text t)
      | UpstreamResult.thrown v => relayCatch v

/-- The cached OpenAI client: `new OpenAI({ apiKey })`. -/
structure OpenAIClient where
  apiKey : String
  deriving DecidableEq, Repr

/-- The `getOpenAI` function of `src/lib/openai.ts`, with the module-level
cache passed and returned explicitly. The result triple is the call's
outcome (the client, or the thrown message), the cache after the call,
and how many times this call read `process.env.OPENAI_API_KEY` (0 when
the cache was already populated, 1 otherwise). -/
def getOpenAI (env : Option String) (openaiClient : Option OpenAIClient) :
    (Except String OpenAIClient) × Option OpenAIClient × Nat :=
  match openaiClient with
  | some c => (Except.ok c, some c, 0)
  | none =>
      match env with
      | none =>
          (Except.error "Missing OPENAI_API_KEY environment variable", none, 1)
      | some k => (Except.ok { apiKey := k }, some { apiKey := k }, 1)

/-- Total number of environment reads across two consecutive `getOpenAI`
calls starting from an empty cache, threading the cache between them. -/
def twoCallEnvReads (env : Option String) : Nat :=
  (getOpenAI env none).2.2 + (getOpenAI env (getOpenAI env none).2.1).2.2

/-! Claim theorems -/

/-- C1: evaluation at the failing input. A session released after a
200 ms hold whose assembled blob is 1500 bytes still emits the
transcription request: `stopRecording` shows the "Hold to record" hint
but has already stopped the recorder, and the `onstop` handler calls
`handleTranscription` unconditionally, where only the 1000-byte gate can
skip the fetch. This contradicts the claim (and the code's own comment
"If tap was too short, don't process"). -/
theorem c1_short_hold_still_fetches :
    Event.fetchRequest ∈ stopRecording 200 1500 (FetchResult.ok (some "hi")) ∧
    Event.hintTooShort ∈ stopRecording 200 1500 (FetchResult.ok (some "hi")) := by
  decide

/-- C2 (amended): on every exit path of a stopped recording session —
success, too-short cancel, undersized blob, upstream error, or network
failure — the microphone stream is released; but the release is the last
observable effect of the session, occurring only after the transcription
attempt has completed, not immediately on gesture release. -/
theorem c2_release_on_every_exit (duration blobSize : Nat)
    (result : FetchResult) :
    Event.releaseStream ∈ stopRecording duration blobSize result ∧
    (stopRecording duration blobSize result).getLast? =
      some Event.releaseStream := by
  constructor
  · simp [stopRecording, onstopTrace]
  · rw [stopRecording, onstopTrace, ← List.append_assoc]
    exact List.getLast?_concat _

/-- C2: counterexample to the claim as stated. In a successful 5-second
session the trace is: fetch the transcription, add the note, and only
then release the stream — the transcription request occurs strictly
before the stream release, so the stream is not released immediately
after gesture release independently of the transcription attempt. -/
theorem c2_release_not_immediate :
    stopRecording 5000 2000 (FetchResult.ok (some "hello")) =
      [Event.fetchRequest, Event.noteAdded "hello", Event.releaseStream] ∧
    Event.fetchRequest ∈
      (stopRecording 5000 2000 (FetchResult.ok (some "hello"))).takeWhile
        (fun e => e != Event.releaseStream) := by
  decide

/-- C3: counterexample to the claim as stated. With the credential absent
from the environment, two consecutive `getOpenAI` calls read the
environment twice — the credential is not read at most once and its
absence is re-encountered on every use. -/
theorem c3_env_read_twice_when_missing :
    twoCallEnvReads none = 2 ∧ ¬ twoCallEnvReads none ≤ 1 := by
  decide

/-- C3 (amended): once a client has been constructed it is cached and
every later call returns the same client with zero environment reads
(so with the credential present the environment is read exactly once, at
first use); with the credential absent, `getOpenAI` reads the
environment and throws on each call, and the relay catches that throw
and surfaces it as a per-request 500 error response. -/
theorem c3_lazy_cache (k : String) (env2 : Option String) (b : AudioBlob) :
    getOpenAI (some k) none =
      (Except.ok { apiKey := k }, some { apiKey := k }, 1) ∧
    getOpenAI env2 (some { apiKey := k }) =
      (Except.ok { apiKey := k }, some { apiKey := k }, 0) ∧
    getOpenAI none none =
      (Except.error "Missing OPENAI_API_KEY environment variable", none, 1) ∧
    POST (some b) (UpstreamResult.thrown
        (ThrownValue.jsError "Missing OPENAI_API_KEY environment variable" none)) =
      (500, RelayBody.err "Missing OPENAI_API_KEY environment variable") :=
  ⟨rfl, rfl, rfl, rfl⟩

/-- C4: when the upstream call throws an error carrying status 401, the
relay responds 401 with the invalid-credential message; for any other
attached status it relays that status and the error's message; an error
without a numeric status defaults to 500 with the error's message; a
non-`Error` value defaults to 500 with "Transcription failed". -/
theorem c4_upstream_error_relay (b : AudioBlob) (m : String) (s : Nat) :
    POST (some b) (UpstreamResult.thrown (ThrownValue.jsError m (some 401))) =
      (401, RelayBody.err "Invalid OpenAI API Key. Please check your Secrets.") ∧
    (s ≠ 401 →
      POST (some b) (UpstreamResult.thrown (ThrownValue.jsError m (some s))) =
        (s, RelayBody.err m)) ∧
    POST (some b) (UpstreamResult.thrown (ThrownValue.jsError m none)) =
      (500, RelayBody.err m) ∧
    POST (some b) (UpstreamResult.thrown ThrownValue.nonErrorValue) =
      (500, RelayBody.err "Transcription failed") := by
  refine ⟨rfl, ?_, rfl, rfl⟩
  intro h
  simp [POST, relayCatch, h]

/-- C4 witness: a concrete non-401 upstream failure (429, "Rate limited")
is relayed with its own status and message. -/
theorem c4_witness :
    (429 : Nat) ≠ 401 ∧
    POST (some { mediaType := "audio/webm", bytes := [1, 2, 3] })
        (UpstreamResult.thrown (ThrownValue.jsError "Rate limited" (some 429))) =
      (429, RelayBody.err "Rate limited") :=
  ⟨by decide,
    (c4_upstream_error_relay { mediaType := "audio/webm", bytes := [1, 2, 3] }
      "Rate limited" 429).2.1 (by decide)⟩

/-- C9 (amended): loading is total (never crashes); a missing entry, an
unparsable entry, and any parsed non-array value all yield the empty
store, while any parsed array — whatever its elements — is installed
verbatim as the store. -/
theorem c9_load_total (n : Int) (b : Bool) (s : String) (xs : List Json)
    (fields : List (String × Json)) :
    loadNotes StoredState.missing = [] ∧
    loadNotes StoredState.unparsable = [] ∧
    loadNotes (StoredState.parsed Json.null) = [] ∧
    loadNotes (StoredState.parsed (Json.bool b)) = [] ∧
    loadNotes (StoredState.parsed (Json.num n)) = [] ∧
    loadNotes (StoredState.parsed (Json.str s)) = [] ∧
    loadNotes (StoredState.parsed (Json.obj fields)) = [] ∧
    loadNotes (StoredState.parsed (Json.arr xs)) = xs :=
  ⟨rfl, rfl, rfl, rfl, rfl, rfl, rfl, rfl⟩

/-- C9: counterexample to the claim as stated. The stored value `[1, 2]`
parses to an array that is not a list of notes, yet loading yields that
array, not the empty store — the load path only checks `Array.isArray`. -/
theorem c9_nonnote_array_loaded :
    loadNotes (StoredState.parsed (Json.arr [Json.num 1, Json.num 2])) =
      [Json.num 1, Json.num 2] ∧
    decodeNotes [Json.num 1, Json.num 2] = none ∧
    loadNotes (StoredState.parsed (Json.arr [Json.num 1, Json.num 2])) ≠ [] := by
  refine ⟨rfl, rfl, ?_⟩
  intro h
  exact List.noConfusion h

/-- C10: the relay wraps every uploaded blob in a file named
`audio.webm` with media type `audio/webm` and the blob's own bytes,
whatever the blob's media type — in particular for the `audio/mp4`
encoding negotiated on platforms without webm support. -/
theorem c10_fixed_upload_name (mt : String) (bytes : List Nat) :
    (toFile { mediaType := mt, bytes := bytes }).name = "audio.webm" ∧
    (toFile { mediaType := mt, bytes := bytes }).mediaType = "audio/webm" ∧
    (toFile { mediaType := mt, bytes := bytes }).bytes = bytes ∧
    chosenMimeType false = "audio/mp4" ∧
    (toFile { mediaType := chosenMimeType false, bytes := bytes }).mediaType =
      "audio/webm" :=
  ⟨rfl, rfl, rfl, rfl, rfl⟩

/-- Decoding inverts serialization of a single note. -/
theorem decodeNote_noteToJson (n : Note) : decodeNote (noteToJson n) = some n := by
  simp [decodeNote, noteToJson]

/-- Decoding inverts serialization of a list of notes. -/
theorem decodeNotes_map (ns : List Note) :
    decodeNotes (ns.map noteToJson) = some ns := by
  induction ns with
  | nil => rfl
  | cons n t ih => simp [decodeNotes, decodeNote_noteToJson, ih]

/-- C5: for every sequence of add/edit/delete operations from any loaded
store, the serialized list written by the save effect, when re-parsed and
run through the load path, is exactly the serialized notes in order, and
decodes back to the same notes in the same order — the persistence
round-trip is lossless for well-formed data. -/
theorem c5_persistence_roundtrip (ops : List NoteOp) (start : List Note) :
    decodeNotes (loadNotes (StoredState.parsed (saveNotes (applyOps ops start)))) =
      some (applyOps ops start) := by
  simp [loadNotes, saveNotes, decodeNotes_map]

/-- C6: editing with an id replaces content in place — all ids, all
creation timestamps, and all positions are unchanged; every note whose id
matches gets the new content, every other note keeps its content; when
the id does not occur in the store the edit is a no-op; editing with a
null id is a no-op. -/
theorem c6_edit_frame (eid newContent : String) (notes : List Note) :
    (saveEdit (some eid) newContent notes).map Note.id = notes.map Note.id ∧
    (saveEdit (some eid) newContent notes).map Note.createdAt =
      notes.map Note.createdAt ∧
    (saveEdit (some eid) newContent notes).map Note.content =
      notes.map (fun n => if n.id = eid then newContent else n.content) ∧
    (eid ∉ notes.map Note.id → saveEdit (some eid) newContent notes = notes) ∧
    saveEdit none newContent notes = notes := by
  refine ⟨?_, ?_, ?_, ?_, rfl⟩
  · induction notes with
    | nil => rfl
    | cons hd tl ih =>
      simp only [saveEdit, List.map_cons] at ih ⊢
      by_cases hh : hd.id = eid <;> simp [hh, ih]
  · induction notes with
    | nil => rfl
    | cons hd tl ih =>
      simp only [saveEdit, List.map_cons] at ih ⊢
      by_cases hh : hd.id = eid <;> simp [hh, ih]
  · induction notes with
    | nil => rfl
    | cons hd tl ih =>
      simp only [saveEdit, List.map_cons] at ih ⊢
      by_cases hh : hd.id = eid <;> simp [hh, ih]
  · induction notes with
    | nil => intro _; rfl
    | cons hd tl ih =>
      intro hmem
      simp only [List.map_cons, List.mem_cons] at hmem
      push_neg at hmem
      obtain ⟨h1, h2⟩ := hmem
      simp only [saveEdit] at ih ⊢
      have hne : ¬ hd.id = eid := fun h => h1 h.symm
      simp only [List.map_cons, if_neg hne, ih h2]

/-- C6 witness: editing with an id absent from the store is a no-op. -/
theorem c6_witness :
    ("b" ∉ ([{ id := "a", content := "x", createdAt := 0 }] : List Note).map
      Note.id) ∧
    saveEdit (some "b") "y" [{ id := "a", content := "x", createdAt := 0 }] =
      [{ id := "a", content := "x", createdAt := 0 }] :=
  ⟨by decide,
    (c6_edit_frame "b" "y"
      [{ id := "a", content := "x", createdAt := 0 }]).2.2.2.1 (by decide)⟩

/-- C7: when the transcription request goes out (blob at least 1000
bytes) and the response is ok but its text trims to empty, no note is
added and the "Couldn't hear clearly" no-speech hint is shown. -/
theorem c7_empty_transcript_no_note (blobSize : Nat) (t : String)
    (hsize : 1000 ≤ blobSize) (htrim : jsTrim t = "") :
    (∀ s, Event.noteAdded s ∉
      handleTranscription blobSize (FetchResult.ok (some t))) ∧
    Event.hintNoSpeech ∈ handleTranscription blobSize (FetchResult.ok (some t)) := by
  have hlt : ¬ blobSize < 1000 := by omega
  simp [handleTranscription, hlt, htrim]

/-- C7 witness: a 1500-byte blob whose ok response is whitespace-only
yields the no-speech hint and no note. -/
theorem c7_witness :
    1000 ≤ 1500 ∧ jsTrim "  " = "" ∧
    Event.hintNoSpeech ∈ handleTranscription 1500 (FetchResult.ok (some "  ")) :=
  ⟨by decide, by decide,
    (c7_empty_transcript_no_note 1500 "  " (by decide) (by decide)).2⟩

/-- C8: a blob under 1000 bytes produces no transcription effects at all
— in particular no fetch of `/api/transcribe` occurs anywhere in the
session trace, whatever the hold duration. -/
theorem c8_small_blob_no_upload (duration blobSize : Nat)
    (result : FetchResult) (h : blobSize < 1000) :
    handleTranscription blobSize result = [] ∧
    Event.fetchRequest ∉ stopRecording duration blobSize result := by
  refine ⟨?_, ?_⟩
  · simp [handleTranscription, h]
  · simp [stopRecording, onstopTrace, handleTranscription, h]

/-- C8 witness: a 500-byte blob is dropped without any request. -/
theorem c8_witness :
    500 < 1000 ∧ handleTranscription 500 (FetchResult.ok (some "hi")) = [] :=
  ⟨by decide,
    (c8_small_blob_no_upload 100 500 (FetchResult.ok (some "hi")) (by decide)).1⟩
